import Mathlib

/-!
# Verification of the realtime chat client (src/chat.py)

A shallow embedding of the protocol core of `src/chat.py`:

* `chat_completion` (chat.py lines 33-127): session handshake, conversation
  item creation, response request, and the event-stream loop, together with
  the trace of transport operations it performs (open / send / recv / close,
  the `async with websockets.connect` block guaranteeing the close).
* the caller's reply-extraction step (chat.py lines 322-332 in `main`),
  combined with `chat_completion` into `executeTurn`.
* a JSON codec (`dumps` / `parseJs`) standing for the `json.dumps` /
  `json.loads` calls in `send_message` / `receive_message`
  (chat.py lines 22-31).

JSON values are modelled by the inductive `Js` restricted to strings,
arrays and objects — the only shapes the protocol events in this program
use.  Python strings are `List Char`.  Inbound wire messages are modelled
as already-parsed `Js` values handed to the client one per `recv`; an
exhausted inbound list models the remote closing the connection
(`websockets.exceptions.ConnectionClosed`).
-/

namespace AzChat

/-- A JSON value as this client uses them: string, array or object
(an object is an association list of key/value pairs with distinct keys,
as produced by `json.loads`). -/
inductive Js : Type where
  | str : List Char → Js
  | arr : List Js → Js
  | obj : List (List Char × Js) → Js

/-- The JSON key `"type"`. -/
def typeK : List Char := "type".toList

/-- The JSON key `"error"`. -/
def errorK : List Char := "error".toList

/-- The JSON key `"session"`. -/
def sessionK : List Char := "session".toList

/-- The JSON key `"id"`. -/
def idK : List Char := "id".toList

/-- The JSON key `"item"`. -/
def itemK : List Char := "item".toList

/-- The JSON key `"role"`. -/
def roleK : List Char := "role".toList

/-- The JSON key `"content"`. -/
def contentK : List Char := "content".toList

/-- The JSON key `"text"`. -/
def textK : List Char := "text".toList

/-- The JSON key `"response"`. -/
def responseK : List Char := "response".toList

/-- The JSON key `"output"`. -/
def outputK : List Char := "output".toList

/-- The JSON key `"transcript"`. -/
def transcriptK : List Char := "transcript".toList

/-- The event type `"session.created"`. -/
def sessionCreatedV : List Char := "session.created".toList

/-- The event type `"conversation.item.create"`. -/
def itemCreateV : List Char := "conversation.item.create".toList

/-- The event type `"conversation.item.created"`. -/
def itemCreatedV : List Char := "conversation.item.created".toList

/-- The event type `"response.create"`. -/
def responseCreateV : List Char := "response.create".toList

/-- The event type `"response.done"`. -/
def responseDoneV : List Char := "response.done".toList

/-- The event type `"error"`. -/
def errorV : List Char := "error".toList

/-- The item type `"message"`. -/
def messageV : List Char := "message".toList

/-- The role `"user"`. -/
def userV : List Char := "user".toList

/-- The role `"assistant"`. -/
def assistantV : List Char := "assistant".toList

/-- The content-part type `"input_text"`. -/
def inputTextV : List Char := "input_text".toList

/-- The content-part type `"audio"`. -/
def audioV : List Char := "audio".toList

/-- The content-part type `"text"`. -/
def textV : List Char := "text".toList

/-- First binding of a key in an association list (Python dict lookup:
keys are unique, so first match is the match). -/
def lookupKey : List (List Char × Js) → List Char → Option Js
  | [], _ => none
  | (k, v) :: rest, key => if k = key then some v else lookupKey rest key

/-- Python `d.get(key)`: `some` value if present, `none` (Python `None`)
otherwise.  On a non-object this model returns `none`; Python would raise
`AttributeError` there, a case no protocol event in scope exercises. -/
def Js.get : Js → List Char → Option Js
  | Js.obj fields, key => lookupKey fields key
  | _, _ => none

/-- Python `d.get(key, default)`. -/
def Js.getD (j : Js) (k : List Char) (d : Js) : Js := (j.get k).getD d

/-- Python `key in d` on a dict. -/
def hasKey (j : Js) (k : List Char) : Bool := (j.get k).isSome

/-- Does an optional JSON value equal the given string?  Mirrors Python
comparisons such as `response.get("type") == "session.created"`: absent
keys give `None` and non-string values compare unequal to a string. -/
def isStrVal : Option Js → List Char → Bool
  | some (Js.str t), s => t == s
  | _, _ => false

/-- Python `event.get("type") == s` / `event.get("type", "") == s`
(for nonempty `s` the two spellings agree). -/
def typeIs (j : Js) (s : List Char) : Bool := isStrVal (j.get typeK) s

/-- One turn of conversation as stored in `conversation_history`
(chat.py lines 278-280, 311): a dict with `role` and `content`. -/
structure Msg : Type where
  role : List Char
  content : List Char

/-- One transport operation performed by `chat_completion`, in order:
opening the websocket (the URL carries the deployment), sending one
JSON message, attempting one receive, and closing the socket. -/
inductive Act : Type where
  | openT (deployment : List Char)
  | send (msg : Js)
  | recv
  | closeT

/-- The distinct failure exits of `chat_completion` and of the caller's
extraction step, one constructor per `raise` site. -/
inductive Err : Type where
  /-- chat.py line 56: handshake event is not `session.created`; the
  raised message embeds the raw event. -/
  | unexpectedHandshake (raw : Js)
  /-- `websockets.exceptions.ConnectionClosed` raised by a `recv` outside
  the stream loop's `try` block; it propagates to the caller. -/
  | connClosed
  /-- chat.py line 86: the item-create acknowledgement carries `error`. -/
  | itemCreateRejected (detail : Js)
  /-- chat.py line 90: acknowledgement is not `conversation.item.created`. -/
  | unexpectedItemEvent
  /-- chat.py line 109: a stream event carries an `error` field. -/
  | apiError (detail : Js)
  /-- chat.py line 118: a stream event has `type == "error"` (and no
  `error` field, or line 109 would have fired first). -/
  | streamError (detail : Js)
  /-- chat.py line 332: the caller's `raise Exception("No valid response
  received")` when the extracted reply is falsy. -/
  | noValidResponse

/-- chat.py lines 62-67: one `{"type": "input_text", "text": msg["content"]}`
part per entry of `messages`. -/
def contentMessages (messages : List Msg) : List Js :=
  messages.map (fun m => Js.obj [(typeK, Js.str inputTextV),
                                 (textK, Js.str m.content)])

/-- chat.py lines 70-77: the `conversation.item.create` request. -/
def createItemRequest (messages : List Msg) : Js :=
  Js.obj [(typeK, Js.str itemCreateV),
          (itemK,
           Js.obj [(typeK, Js.str messageV),
                   (roleK, Js.str userV),
                   (contentK, Js.arr (contentMessages messages))])]

/-- chat.py lines 93-96: the `response.create` request. -/
def responseRequest : Js :=
  Js.obj [(typeK, Js.str responseCreateV),
          (responseK, Js.obj [])]

/-- chat.py lines 54-58: classify the handshake event.  A non
`session.created` event fails carrying the raw event (the raised message
interpolates the whole response); otherwise the session id is
`response.get("session", {}).get("id")`. -/
def negotiateStep (response : Js) : Except Js (Option Js) :=
  if typeIs response sessionCreatedV then
    Except.ok ((response.getD sessionK (Js.obj [])).get idK)
  else
    Except.error response

/-- chat.py lines 101-127: the stream loop, consuming the remaining
inbound events.  Each iteration performs one `recv`; an exhausted inbound
list is the remote closing, which the loop's `except ConnectionClosed`
handler turns into a plain `break`, leaving `final_response` as it was
(`None`, since a `response.done` would already have exited the loop). -/
def streamLoop : List Js → Except Err (Option Js) × List Act
  | [] => (Except.ok none, [Act.recv])
  | e :: rest =>
    if hasKey e errorK then
      (Except.error (Err.apiError (e.getD errorK (Js.obj []))), [Act.recv])
    else if typeIs e responseDoneV then
      (Except.ok (some (e.getD responseK (Js.obj []))), [Act.recv])
    else if typeIs e errorV then
      (Except.error (Err.streamError (e.getD errorK (Js.obj []))), [Act.recv])
    else
      let r := streamLoop rest
      (r.1, Act.recv :: r.2)

/-- chat.py lines 50-127: the body of the `async with` block of
`chat_completion` — handshake, item creation, response request and the
stream loop, paired with the sends/receives it performs. -/
def chatBody (messages : List Msg) (events : List Js) :
    Except Err (Option Js) × List Act :=
  match events with
  | [] => (Except.error Err.connClosed, [Act.recv])
  | h :: rest =>
    match negotiateStep h with
    | Except.error raw => (Except.error (Err.unexpectedHandshake raw), [Act.recv])
    | Except.ok _newSessionId =>
      match rest with
      | [] =>
        (Except.error Err.connClosed,
         [Act.recv, Act.send (createItemRequest messages), Act.recv])
      | e2 :: rest2 =>
        if hasKey e2 errorK then
          (Except.error (Err.itemCreateRejected (e2.getD errorK (Js.obj []))),
           [Act.recv, Act.send (createItemRequest messages), Act.recv])
        else if typeIs e2 itemCreatedV then
          let r := streamLoop rest2
          (r.1, [Act.recv, Act.send (createItemRequest messages), Act.recv,
                 Act.send responseRequest] ++ r.2)
        else
          (Except.error Err.unexpectedItemEvent,
           [Act.recv, Act.send (createItemRequest messages), Act.recv])

/-- chat.py lines 33-127, `chat_completion`.  `events` is the sequence of
inbound messages the remote will deliver; the result pairs the returned
value (`final_response`, possibly `None`) or raised error with the trace
of transport operations.  The `async with websockets.connect` block
(line 49) contributes the leading `openT` and the trailing `closeT` on
every exit path.  The `session_id` parameter is rebound at line 58 before
any use, so the argument value is dead. -/
def chat_completion (deployment : List Char) (messages : List Msg)
    (sessionId : Option Js) (events : List Js) :
    Except Err (Option Js) × List Act :=
  ((chatBody messages events).1,
   Act.openT deployment :: (chatBody messages events).2 ++ [Act.closeT])

/-- The value held by the Python variable `response` during the caller's
extraction step (chat.py lines 322-332): either `None` (from a swallowed
`ConnectionClosed`) or a JSON value (the `response.done` payload, possibly
rewritten to the transcript string). -/
inductive PyV : Type where
  | noneV
  | jv (j : Js)

/-- Python truthiness of the values `response` can hold: `None` and empty
strings/lists/dicts are falsy. -/
def truthy : PyV → Bool
  | PyV.noneV => false
  | PyV.jv (Js.str s) => !s.isEmpty
  | PyV.jv (Js.arr xs) => !xs.isEmpty
  | PyV.jv (Js.obj fs) => !fs.isEmpty

/-- chat.py lines 326-329, the inner `for content in item.get('content', [])`
loop: the first part with `type == 'audio'` yields
`content.get('transcript', '')` and breaks. -/
def firstAudioHit : List Js → Option Js
  | [] => none
  | c :: rest =>
    if typeIs c audioV then
      some (c.getD transcriptK (Js.str []))
    else firstAudioHit rest

/-- chat.py line 326, `item.get('content', [])`, read as a list; the
events in scope always carry a list here. -/
def contentItems (item : Js) : List Js :=
  match item.getD contentK (Js.arr []) with
  | Js.arr xs => xs
  | _ => []

/-- chat.py line 325: is this output item an assistant message? -/
def isAssistantMsg (item : Js) : Bool :=
  typeIs item messageV && isStrVal (item.get roleK) assistantV

/-- chat.py lines 324-329, the outer `for item in response['output']` loop.
The loop has no `break`: the accumulator `resp` (the Python variable
`response`) is overwritten on every assistant item that has an audio part,
and iteration continues over the original list. -/
def extractLoop (items : List Js) (resp : PyV) : PyV :=
  match items with
  | [] => resp
  | it :: rest =>
    if isAssistantMsg it then
      match firstAudioHit (contentItems it) with
      | some v => extractLoop rest (PyV.jv v)
      | none => extractLoop rest resp
    else extractLoop rest resp

/-- chat.py lines 323-329: run the extraction only when the reply is a
dict containing `'output'`; the events in scope always carry a list under
`'output'`. -/
def extractReply (r : Option Js) : PyV :=
  match r with
  | none => PyV.noneV
  | some j =>
    match j.get outputK with
    | some (Js.arr items) => extractLoop items (PyV.jv j)
    | _ => PyV.jv j

/-- chat.py lines 316-332: one full turn as the voice-chat caller runs it —
`chat_completion` followed by the transcript extraction and the
`if not response: raise` validity check. -/
def executeTurn (deployment : List Char) (messages : List Msg)
    (sessionId : Option Js) (events : List Js) :
    Except Err PyV × List Act :=
  let r := chat_completion deployment messages sessionId events
  match r.1 with
  | Except.error e => (Except.error e, r.2)
  | Except.ok v =>
    let resp := extractReply v
    if truthy resp then (Except.ok resp, r.2)
    else (Except.error Err.noValidResponse, r.2)

/-- A well-formed handshake event, as in spec §8 Scenario A:
`{"type":"session.created","session":{"id":"s1"}}`. -/
def hsEv : Js :=
  Js.obj [(typeK, Js.str sessionCreatedV),
          (sessionK, Js.obj [(idK, Js.str "s1".toList)])]

/-- A well-formed item-create acknowledgement. -/
def ackEv : Js :=
  Js.obj [(typeK, Js.str itemCreatedV)]

/-- An audio content part carrying a transcript. -/
def audioPart (t : List Char) : Js :=
  Js.obj [(typeK, Js.str audioV), (transcriptK, Js.str t)]

/-- A text content part. -/
def textPart (t : List Char) : Js :=
  Js.obj [(typeK, Js.str textV), (textK, Js.str t)]

/-- An assistant message output item with the given content parts. -/
def assistantItem (parts : List Js) : Js :=
  Js.obj [(typeK, Js.str messageV),
          (roleK, Js.str assistantV),
          (contentK, Js.arr parts)]

/-- A `response.done` payload with the given output items. -/
def donePayload (items : List Js) : Js :=
  Js.obj [(outputK, Js.arr items)]

/-- A `response.done` event with the given output items. -/
def doneEv (items : List Js) : Js :=
  Js.obj [(typeK, Js.str responseDoneV),
          (responseK, donePayload items)]

/-- A sample system turn. -/
def sysMsg : Msg := ⟨"system".toList, "be brief".toList⟩

/-- A sample user turn. -/
def userMsg : Msg := ⟨"user".toList, "hi".toList⟩

/-- Modelled from the spec: the reply-extraction rule of §4.4, which the
source only approximates (chat.py lines 322-329) — "among its output
items, find the first item of type `message` with role `assistant`".
Used solely as the comparison point for refinement claims. -/
def specFindAssistant : List Js → Option Js
  | [] => none
  | it :: rest => if isAssistantMsg it then some it else specFindAssistant rest

/-- Modelled from the spec: "among that item's content parts, find the
first part marked as carrying a transcript (audio-with-transcript or
text); its text is the reply" (§4.4). -/
def specFirstTranscriptPart : List Js → Option (List Char)
  | [] => none
  | c :: rest =>
    if typeIs c audioV then
      match c.get transcriptK with
      | some (Js.str t) => some t
      | _ => specFirstTranscriptPart rest
    else if typeIs c textV then
      match c.get textK with
      | some (Js.str t) => some t
      | _ => specFirstTranscriptPart rest
    else specFirstTranscriptPart rest

/-- Modelled from the spec: the whole §4.4 extraction rule over a
completion payload. -/
def specExtract (resp : Js) : Option (List Char) :=
  match resp.get outputK with
  | some (Js.arr items) =>
    match specFindAssistant items with
    | some it => specFirstTranscriptPart (contentItems it)
    | none => none
  | _ => none

/-- An event the stream loop discards and keeps looping past: it carries
no `error` field and its type is neither `response.done` nor `error`
(chat.py lines 107-118). -/
def notTerminal (e : Js) : Bool :=
  !hasKey e errorK && !typeIs e responseDoneV && !typeIs e errorV

/-- Is this transport action an `open`? -/
def isOpen : Act → Bool
  | Act.openT _ => true
  | _ => false

/-- Is this transport action a `close`? -/
def isClose : Act → Bool
  | Act.closeT => true
  | _ => false

/-- Declarative description of what the caller's extraction loop
actually computes: the first audio-part hit of the LAST assistant item
that has an audio part (the outer loop has no `break`, so later hits
overwrite earlier ones). -/
def lastAudioHit : List Js → Option Js
  | [] => none
  | it :: rest =>
    match lastAudioHit rest with
    | some v => some v
    | none => if isAssistantMsg it then firstAudioHit (contentItems it) else none

/-- The `text` fields of the content parts of a conversation-item-create
event, in order. -/
def contentTexts (ev : Js) : List (List Char) :=
  match (ev.getD itemK (Js.obj [])).get contentK with
  | some (Js.arr parts) =>
    parts.map (fun p =>
      match p.get textK with
      | some (Js.str t) => t
      | _ => [])
  | _ => []

/-- Modelled from the spec: the Event Codec's string escaping.  The
source delegates encoding to `json.dumps` (chat.py line 24), a library
function outside this repository; this model escapes the JSON string
metacharacters (quote, backslash) and the control characters newline,
carriage return and tab, passing other characters through (the library
additionally escapes remaining control and non-ASCII characters, with
the same round-trip behavior). -/
def escChar (c : Char) : List Char :=
  if c = '"' then ['\\', '"']
  else if c = '\\' then ['\\', '\\']
  else if c = '\n' then ['\\', 'n']
  else if c = '\r' then ['\\', 'r']
  else if c = '\t' then ['\\', 't']
  else [c]

/-- Modelled from the spec: escape a whole string body. -/
def escStr : List Char → List Char
  | [] => []
  | c :: rest => escChar c ++ escStr rest

mutual

/-- Modelled from the spec: the Event Codec's `encode` — serialize a JSON
value to its wire characters (the source delegates to `json.dumps`,
chat.py line 24; compact separators). -/
def dumps : Js → List Char
  | Js.str s => '"' :: (escStr s ++ ['"'])
  | Js.arr vs => '[' :: dumpsArr vs
  | Js.obj kvs => '\x7b' :: dumpsObj kvs

/-- Array elements after the opening bracket, including the closer. -/
def dumpsArr : List Js → List Char
  | [] => [']']
  | v :: vs => dumps v ++ dumpsArrRest vs

/-- Array elements after the first, comma-separated, including the
closer. -/
def dumpsArrRest : List Js → List Char
  | [] => [']']
  | v :: vs => ',' :: (dumps v ++ dumpsArrRest vs)

/-- One `"key":value` pair. -/
def dumpsPair : List Char × Js → List Char
  | (k, v) => '"' :: (escStr k ++ ['"', ':'] ++ dumps v)

/-- Object pairs after the opening brace, including the closer. -/
def dumpsObj : List (List Char × Js) → List Char
  | [] => ['\x7d']
  | kv :: kvs => dumpsPair kv ++ dumpsObjRest kvs

/-- Object pairs after the first, comma-separated, including the
closer. -/
def dumpsObjRest : List (List Char × Js) → List Char
  | [] => ['\x7d']
  | kv :: kvs => ',' :: (dumpsPair kv ++ dumpsObjRest kvs)

end

/-- Modelled from the spec: decode the body of a JSON string after its
opening quote, undoing `escChar`; yields the string content and the
input remaining after the closing quote. -/
def parseStr : List Char → Option (List Char × List Char)
  | [] => none
  | c :: rest =>
    if c = '"' then some ([], rest)
    else if c = '\\' then
      match rest with
      | [] => none
      | e :: rest2 =>
        match (if e = '"' then some '"'
               else if e = '\\' then some '\\'
               else if e = 'n' then some '\n'
               else if e = 'r' then some '\r'
               else if e = 't' then some '\t'
               else none) with
        | none => none
        | some dch =>
          match parseStr rest2 with
          | some (s, r) => some (dch :: s, r)
          | none => none
    else
      match parseStr rest with
      | some (s, r) => some (c :: s, r)
      | none => none

/-- Sequence an optional intermediate parse result (the explicit form of
Option.bind, kept first-order so the parser equations stay shallow). -/
def obind : Option α → (α → Option β) → Option β
  | none, _ => none
  | some a, g => g a

mutual

/-- Modelled from the spec: the Event Codec's `decode` — parse one JSON
value from wire characters (the source delegates to `json.loads`,
chat.py line 31).  `fuel` bounds nesting depth; `Js.fuel` of a value
always suffices. -/
def parseJs : Nat → List Char → Option (Js × List Char)
  | 0, _ => none
  | Nat.succ f, cs =>
    match cs with
    | [] => none
    | c :: rest =>
      if c = '"' then
        obind (parseStr rest) (fun sr => some (Js.str sr.1, sr.2))
      else if c = '[' then
        match rest with
        | [] => none
        | c2 :: tl =>
          if c2 = ']' then some (Js.arr [], tl)
          else
            obind (parseJs f (c2 :: tl)) (fun vr =>
              obind (parseArrRest f vr.2) (fun w =>
                some (Js.arr (vr.1 :: w.1), w.2)))
      else if c = '\x7b' then
        match rest with
        | [] => none
        | c2 :: tl =>
          if c2 = '\x7d' then some (Js.obj [], tl)
          else
            obind (parsePair f (c2 :: tl)) (fun kvr =>
              obind (parseObjRest f kvr.2) (fun w =>
                some (Js.obj (kvr.1 :: w.1), w.2)))
      else none

/-- Parse array elements after the first, expecting `]` or `,`. -/
def parseArrRest : Nat → List Char → Option (List Js × List Char)
  | 0, _ => none
  | Nat.succ f, cs =>
    match cs with
    | [] => none
    | c :: rest =>
      if c = ']' then some ([], rest)
      else if c = ',' then
        obind (parseJs f rest) (fun vr =>
          obind (parseArrRest f vr.2) (fun w => some (vr.1 :: w.1, w.2)))
      else none

/-- Parse one `"key":value` pair. -/
def parsePair : Nat → List Char → Option ((List Char × Js) × List Char)
  | 0, _ => none
  | Nat.succ f, cs =>
    match cs with
    | [] => none
    | c :: rest =>
      if c = '"' then
        obind (parseStr rest) (fun kr =>
          match kr.2 with
          | [] => none
          | c2 :: r2 =>
            if c2 = ':' then
              obind (parseJs f r2) (fun vr => some ((kr.1, vr.1), vr.2))
            else none)
      else none

/-- Parse object pairs after the first, expecting a closing brace or
`,`. -/
def parseObjRest : Nat → List Char → Option (List (List Char × Js) × List Char)
  | 0, _ => none
  | Nat.succ f, cs =>
    match cs with
    | [] => none
    | c :: rest =>
      if c = '\x7d' then some ([], rest)
      else if c = ',' then
        obind (parsePair f rest) (fun kvr =>
          obind (parseObjRest f kvr.2) (fun w => some (kvr.1 :: w.1, w.2)))
      else none

end

mutual

/-- Fuel sufficient for `parseJs` to decode `dumps` of a value. -/
def Js.fuel : Js → Nat
  | Js.str _ => 1
  | Js.arr vs => fuelArr vs + 1
  | Js.obj kvs => fuelObj kvs + 1

/-- Fuel for an array's element list. -/
def fuelArr : List Js → Nat
  | [] => 1
  | v :: vs => Js.fuel v + fuelArr vs + 1

/-- Fuel for an object's pair list. -/
def fuelObj : List (List Char × Js) → Nat
  | [] => 1
  | kv :: kvs => Js.fuel kv.2 + fuelObj kvs + 1

end

/-- Unfolding of `notTerminal` into its three conjuncts. -/
theorem notTerminal_spec {e : Js} (h : notTerminal e = true) :
    hasKey e errorK = false ∧ typeIs e responseDoneV = false
      ∧ typeIs e errorV = false := by
  simp only [notTerminal, Bool.and_eq_true, Bool.not_eq_true'] at h
  exact ⟨h.1.1, h.1.2, h.2⟩

/-- A run of discarded events followed by closure: the loop receives each
event plus one failing receive, and returns `None` without error. -/
theorem streamLoop_allNonTerminal (evs : List Js)
    (h : ∀ x ∈ evs, notTerminal x = true) :
    streamLoop evs = (Except.ok none, List.replicate (evs.length + 1) Act.recv) := by
  induction evs with
  | nil => rfl
  | cons e rest ih =>
    obtain ⟨h1, h2, h3⟩ := notTerminal_spec (h e (List.mem_cons_self e rest))
    simp [streamLoop, h1, h2, h3, ih (fun x hx => h x (List.mem_cons_of_mem e hx)),
      List.replicate_succ]

/-- A run of discarded events followed by an event carrying an `error`
field: the loop stops at that event with `apiError` carrying its detail,
having performed exactly one receive per event seen. -/
theorem streamLoop_errorEvent (pre : List Js) (e : Js) (post : List Js)
    (hpre : ∀ x ∈ pre, notTerminal x = true)
    (he : hasKey e errorK = true) :
    streamLoop (pre ++ e :: post)
      = (Except.error (Err.apiError (e.getD errorK (Js.obj []))),
         List.replicate (pre.length + 1) Act.recv) := by
  induction pre with
  | nil => simp [streamLoop, he]
  | cons p rest ih =>
    obtain ⟨h1, h2, h3⟩ := notTerminal_spec (hpre p (List.mem_cons_self p rest))
    simp [streamLoop, h1, h2, h3, ih (fun x hx => hpre x (List.mem_cons_of_mem p hx)),
      List.replicate_succ]

/-- A run of discarded events followed by a `response.done` event: the
loop stops there returning the event's `response` payload. -/
theorem streamLoop_doneEvent (pre : List Js) (e : Js) (post : List Js)
    (hpre : ∀ x ∈ pre, notTerminal x = true)
    (he : hasKey e errorK = false)
    (hd : typeIs e responseDoneV = true) :
    streamLoop (pre ++ e :: post)
      = (Except.ok (some (e.getD responseK (Js.obj []))),
         List.replicate (pre.length + 1) Act.recv) := by
  induction pre with
  | nil => simp [streamLoop, he, hd]
  | cons p rest ih =>
    obtain ⟨h1, h2, h3⟩ := notTerminal_spec (hpre p (List.mem_cons_self p rest))
    simp [streamLoop, h1, h2, h3, ih (fun x hx => hpre x (List.mem_cons_of_mem p hx)),
      List.replicate_succ]

/-- The stream loop only ever receives: its trace holds no send, open or
close. -/
theorem streamLoop_trace_recv (evs : List Js) :
    ∀ a ∈ (streamLoop evs).2, a = Act.recv := by
  induction evs with
  | nil => intro a ha; simpa [streamLoop] using ha
  | cons e rest ih =>
    intro a ha
    by_cases h1 : hasKey e errorK
    · simpa [streamLoop, h1] using ha
    · by_cases h2 : typeIs e responseDoneV
      · simpa [streamLoop, h1, h2] using ha
      · by_cases h3 : typeIs e errorV
        · simpa [streamLoop, h1, h2, h3] using ha
        · simp only [streamLoop, h1, h2, h3, Bool.false_eq_true, if_false,
            List.mem_cons] at ha
          rcases ha with rfl | ha
          · rfl
          · exact ih a ha

/-- The extraction loop computes `lastAudioHit`: the accumulator survives
only when no later assistant item carries an audio part. -/
theorem extractLoop_eq_lastAudioHit (items : List Js) (r0 : PyV) :
    extractLoop items r0
      = (match lastAudioHit items with
         | some v => PyV.jv v
         | none => r0) := by
  induction items generalizing r0 with
  | nil => rfl
  | cons it rest ih =>
    by_cases ha : isAssistantMsg it
    · cases hfa : firstAudioHit (contentItems it) with
      | none =>
        cases hl : lastAudioHit rest <;>
          simp [extractLoop, lastAudioHit, ha, hfa, ih, hl]
      | some v =>
        cases hl : lastAudioHit rest <;>
          simp [extractLoop, lastAudioHit, ha, hfa, ih, hl]
    · cases hl : lastAudioHit rest <;>
        simp [extractLoop, lastAudioHit, ha, ih, hl]

/-- The `async with` body never opens or closes a transport: it only
sends and receives on the one connection it was given. -/
theorem chatBody_no_open_close (msgs : List Msg) (evs : List Js) :
    ∀ a ∈ (chatBody msgs evs).2, isOpen a = false ∧ isClose a = false := by
  intro a ha
  cases evs with
  | nil =>
    simp only [chatBody, List.mem_singleton] at ha
    subst ha; exact ⟨rfl, rfl⟩
  | cons h rest =>
    cases hn : negotiateStep h with
    | error raw =>
      simp only [chatBody, hn, List.mem_singleton] at ha
      subst ha; exact ⟨rfl, rfl⟩
    | ok s =>
      cases rest with
      | nil =>
        simp only [chatBody, hn, List.mem_cons, List.mem_singleton, List.mem_nil_iff, or_false] at ha
        rcases ha with rfl | rfl | rfl <;> exact ⟨rfl, rfl⟩
      | cons e2 rest2 =>
        by_cases h1 : hasKey e2 errorK
        · simp only [chatBody, hn, h1, if_true, List.mem_cons,
            List.mem_singleton, List.mem_nil_iff, or_false] at ha
          rcases ha with rfl | rfl | rfl <;> exact ⟨rfl, rfl⟩
        · by_cases h2 : typeIs e2 itemCreatedV
          · simp only [chatBody, hn, h1, h2, Bool.false_eq_true, if_false,
              if_true, List.mem_append, List.mem_cons, List.mem_singleton, List.mem_nil_iff, or_false] at ha
            rcases ha with (rfl | rfl | rfl | rfl) | h
            · exact ⟨rfl, rfl⟩
            · exact ⟨rfl, rfl⟩
            · exact ⟨rfl, rfl⟩
            · exact ⟨rfl, rfl⟩
            · rw [streamLoop_trace_recv rest2 a h]; exact ⟨rfl, rfl⟩
          · simp only [chatBody, hn, h1, h2, Bool.false_eq_true, if_false,
              List.mem_cons, List.mem_singleton, List.mem_nil_iff, or_false] at ha
            rcases ha with rfl | rfl | rfl <;> exact ⟨rfl, rfl⟩

/-- On a successful handshake and item acknowledgement, the turn reduces
to the stream loop, after one receive, the item send, the acknowledgement
receive and the response-create send. -/
theorem chatBody_goodPath (msgs : List Msg) (hs ack : Js) (rest2 : List Js)
    (hhs : typeIs hs sessionCreatedV = true)
    (hack1 : hasKey ack errorK = false)
    (hack2 : typeIs ack itemCreatedV = true) :
    chatBody msgs (hs :: ack :: rest2)
      = ((streamLoop rest2).1,
         [Act.recv, Act.send (createItemRequest msgs), Act.recv,
          Act.send responseRequest] ++ (streamLoop rest2).2) := by
  simp [chatBody, negotiateStep, hhs, hack1, hack2]

/-- The texts carried by a conversation-item-create event are exactly the
`content` fields of the messages, in order. -/
theorem contentTexts_createItem (msgs : List Msg) :
    contentTexts (createItemRequest msgs) = msgs.map Msg.content := by
  induction msgs with
  | nil => rfl
  | cons m rest ih =>
    show m.content :: contentTexts (createItemRequest rest)
      = m.content :: rest.map Msg.content
    rw [ih]

/-- C1, counterexample: with a completion event holding two assistant
message items whose audio transcripts are `"A"` then `"B"`, the combined
pipeline returns `"B"` — the transcript of the LAST assistant item — while
the spec's extraction rule (first assistant item, first transcript part)
yields `"A"`; and with a text part preceding an audio part, the pipeline
skips the text part and returns the audio transcript, while the spec rule
yields the text part. -/
theorem C1_counterexample :
    (executeTurn "d".toList [userMsg] none
      [hsEv, ackEv,
       doneEv [assistantItem [audioPart "A".toList],
               assistantItem [audioPart "B".toList]]]).1
      = Except.ok (PyV.jv (Js.str "B".toList))
    ∧ specExtract (donePayload [assistantItem [audioPart "A".toList],
                                assistantItem [audioPart "B".toList]])
      = some "A".toList
    ∧ "B".toList ≠ "A".toList
    ∧ (executeTurn "d".toList [userMsg] none
        [hsEv, ackEv, doneEv [assistantItem [textPart "T".toList,
                                             audioPart "A".toList]]]).1
      = Except.ok (PyV.jv (Js.str "A".toList))
    ∧ specExtract (donePayload [assistantItem [textPart "T".toList,
                                               audioPart "A".toList]])
      = some "T".toList :=
  ⟨rfl, rfl, by decide, rfl, rfl⟩

/-- C1, amended: for every well-formed run ending in `response.done`, the
pipeline returns the transcript carried by the first audio-typed content
part of the LAST assistant message item having such a part (text parts are
never extracted), provided that transcript is a nonempty string. -/
theorem C1_amended_extraction (d : List Char) (msgs : List Msg) (sid : Option Js)
    (hs ack : Js) (pre items post : List Js) (t : List Char)
    (hhs : typeIs hs sessionCreatedV = true)
    (hack1 : hasKey ack errorK = false)
    (hack2 : typeIs ack itemCreatedV = true)
    (hpre : ∀ x ∈ pre, notTerminal x = true)
    (hlast : lastAudioHit items = some (Js.str t))
    (ht : t ≠ []) :
    (executeTurn d msgs sid (hs :: ack :: (pre ++ doneEv items :: post))).1
      = Except.ok (PyV.jv (Js.str t)) := by
  have hb := chatBody_goodPath msgs hs ack (pre ++ doneEv items :: post) hhs hack1 hack2
  have hsl := streamLoop_doneEvent pre (doneEv items) post hpre rfl rfl
  have hchat : (chat_completion d msgs sid (hs :: ack :: (pre ++ doneEv items :: post))).1
      = Except.ok (some (donePayload items)) := by
    simp only [chat_completion, hb, hsl]
    rfl
  have hext : extractReply (some (donePayload items)) = PyV.jv (Js.str t) := by
    show extractLoop items (PyV.jv (donePayload items)) = PyV.jv (Js.str t)
    rw [extractLoop_eq_lastAudioHit, hlast]
  have htruthy : truthy (PyV.jv (Js.str t)) = true := by
    cases t with
    | nil => exact absurd rfl ht
    | cons c cs => rfl
  simp [executeTurn, hchat, hext, htruthy]

/-- Witness for C1_amended_extraction: a single assistant audio item with
transcript `"A"` makes the pipeline return `"A"`. -/
theorem C1_amended_extraction_witness :
    (executeTurn "d".toList [userMsg] none
      (hsEv :: ackEv :: ([] ++ doneEv [assistantItem [audioPart "A".toList]] :: []))).1
      = Except.ok (PyV.jv (Js.str "A".toList)) :=
  C1_amended_extraction "d".toList [userMsg] none hsEv ackEv []
    [assistantItem [audioPart "A".toList]] [] "A".toList rfl rfl rfl
    (fun x hx => absurd hx (List.not_mem_nil x)) rfl (by decide)

/-- C2, counterexample: a transport closure in the stream phase (inbound
events exhausted after the acknowledgement) makes `chat_completion`
return normally with `None` — a success-shaped value, not a
`ConnectionClosed` error. -/
theorem C2_counterexample :
    (chat_completion "d".toList [userMsg] none [hsEv, ackEv]).1 = Except.ok none
    ∧ (chat_completion "d".toList [userMsg] none [hsEv, ackEv]).2
      = [Act.openT "d".toList, Act.recv, Act.send (createItemRequest [userMsg]),
         Act.recv, Act.send responseRequest, Act.recv, Act.closeT] :=
  ⟨rfl, rfl⟩

/-- C2, amended: when the transport signals closed during the stream
phase, `chat_completion` swallows the closure and returns `None`
(success-shaped); only the caller's falsy-reply check later raises the
generic no-valid-response error — never a `ConnectionClosed`-typed one. -/
theorem C2_amended_closed_returns_none (d : List Char) (msgs : List Msg)
    (sid : Option Js) (hs ack : Js) (pre : List Js)
    (hhs : typeIs hs sessionCreatedV = true)
    (hack1 : hasKey ack errorK = false)
    (hack2 : typeIs ack itemCreatedV = true)
    (hpre : ∀ x ∈ pre, notTerminal x = true) :
    (chat_completion d msgs sid (hs :: ack :: pre)).1 = Except.ok none
    ∧ (executeTurn d msgs sid (hs :: ack :: pre)).1
      = Except.error Err.noValidResponse := by
  have hb := chatBody_goodPath msgs hs ack pre hhs hack1 hack2
  have hsl := streamLoop_allNonTerminal pre hpre
  have h1 : (chat_completion d msgs sid (hs :: ack :: pre)).1 = Except.ok none := by
    simp [chat_completion, hb, hsl]
  refine ⟨h1, ?_⟩
  simp [executeTurn, h1, extractReply, truthy]

/-- Witness for C2_amended_closed_returns_none: closure right after the
acknowledgement. -/
theorem C2_amended_closed_returns_none_witness :
    (chat_completion "d".toList [userMsg] none [hsEv, ackEv]).1 = Except.ok none
    ∧ (executeTurn "d".toList [userMsg] none [hsEv, ackEv]).1
      = Except.error Err.noValidResponse :=
  C2_amended_closed_returns_none "d".toList [userMsg] none hsEv ackEv [] rfl rfl rfl
    (fun x hx => absurd hx (List.not_mem_nil x))

/-- C3, counterexample: with a two-turn conversation the sent
conversation-item-create event's content list has one input-text part per
turn — two parts, not "exactly one part holding the latest user message's
text". -/
theorem C3_counterexample :
    contentTexts (createItemRequest [sysMsg, userMsg])
      = ["be brief".toList, "hi".toList]
    ∧ (contentTexts (createItemRequest [sysMsg, userMsg])).length ≠ 1
    ∧ (chat_completion "d".toList [sysMsg, userMsg] none [hsEv, ackEv]).2
      = [Act.openT "d".toList, Act.recv,
         Act.send (createItemRequest [sysMsg, userMsg]),
         Act.recv, Act.send responseRequest, Act.recv, Act.closeT] :=
  ⟨rfl, by decide, rfl⟩

/-- C3, amended: the conversation-item-create event sent after a
successful handshake carries one input-text part per turn of the whole
conversation given to the executor, in order — the full history, not only
the latest user message. -/
theorem C3_amended_full_history (d : List Char) (msgs : List Msg) (sid : Option Js)
    (hs : Js) (rest : List Js) (hhs : typeIs hs sessionCreatedV = true) :
    (chat_completion d msgs sid (hs :: rest)).2[2]?
      = some (Act.send (createItemRequest msgs))
    ∧ contentTexts (createItemRequest msgs) = msgs.map Msg.content := by
  refine ⟨?_, contentTexts_createItem msgs⟩
  cases rest with
  | nil => simp [chat_completion, chatBody, negotiateStep, hhs]
  | cons e2 rest2 =>
    by_cases h1 : hasKey e2 errorK
    · simp [chat_completion, chatBody, negotiateStep, hhs, h1]
    · by_cases h2 : typeIs e2 itemCreatedV
      · simp [chat_completion, chatBody, negotiateStep, hhs, h1, h2]
      · simp [chat_completion, chatBody, negotiateStep, hhs, h1, h2]

/-- Witness for C3_amended_full_history at a two-turn conversation. -/
theorem C3_amended_full_history_witness :
    (chat_completion "d".toList [sysMsg, userMsg] none [hsEv, ackEv]).2[2]?
      = some (Act.send (createItemRequest [sysMsg, userMsg]))
    ∧ contentTexts (createItemRequest [sysMsg, userMsg])
      = [sysMsg, userMsg].map Msg.content :=
  C3_amended_full_history "d".toList [sysMsg, userMsg] none hsEv [ackEv] rfl

/-- C4: during the turn proper (item acknowledgement and stream phases),
every received event carrying an `error` field is terminal regardless of
its `type`: the turn ends with the corresponding error carrying the
event's error detail, and the trace shows no send after that receive. -/
theorem C4_error_event_terminal (d : List Char) (msgs : List Msg) (sid : Option Js)
    (hs : Js) (hhs : typeIs hs sessionCreatedV = true) :
    (∀ e2 rest, hasKey e2 errorK = true →
      chat_completion d msgs sid (hs :: e2 :: rest)
        = (Except.error (Err.itemCreateRejected (e2.getD errorK (Js.obj []))),
           [Act.openT d, Act.recv, Act.send (createItemRequest msgs), Act.recv,
            Act.closeT]))
    ∧ (∀ ack pre e post, hasKey ack errorK = false →
        typeIs ack itemCreatedV = true →
        (∀ x ∈ pre, notTerminal x = true) →
        hasKey e errorK = true →
        chat_completion d msgs sid (hs :: ack :: (pre ++ e :: post))
          = (Except.error (Err.apiError (e.getD errorK (Js.obj []))),
             Act.openT d :: ([Act.recv, Act.send (createItemRequest msgs), Act.recv,
               Act.send responseRequest] ++ List.replicate (pre.length + 1) Act.recv)
               ++ [Act.closeT])) := by
  constructor
  · intro e2 rest he
    simp [chat_completion, chatBody, negotiateStep, hhs, he]
  · intro ack pre e post hack1 hack2 hpre he
    have hb := chatBody_goodPath msgs hs ack (pre ++ e :: post) hhs hack1 hack2
    have hsl := streamLoop_errorEvent pre e post hpre he
    simp [chat_completion, hb, hsl]

/-- Witness for C4_error_event_terminal: an error-carrying item
acknowledgement ends the turn with `itemCreateRejected` and its detail,
with no further sends. -/
theorem C4_error_event_terminal_witness :
    chat_completion "d".toList [userMsg] none
        [hsEv, Js.obj [(errorK, Js.str "boom".toList)]]
      = (Except.error (Err.itemCreateRejected (Js.str "boom".toList)),
         [Act.openT "d".toList, Act.recv, Act.send (createItemRequest [userMsg]),
          Act.recv, Act.closeT]) :=
  (C4_error_event_terminal "d".toList [userMsg] none hsEv rfl).1
    (Js.obj [(errorK, Js.str "boom".toList)]) [] rfl

/-- C5: evaluating the pipeline at a `response.done` whose output holds
no assistant message: the spec extraction finds nothing, yet the code
returns the raw (truthy) response payload as the reply instead of failing
with an empty-reply error. -/
theorem C5_code_bug_eval :
    (executeTurn "d".toList [userMsg] none [hsEv, ackEv, doneEv []]).1
      = Except.ok (PyV.jv (donePayload []))
    ∧ specExtract (donePayload []) = none :=
  ⟨rfl, rfl⟩

/-- C6: negotiation receives exactly one event; a non-`session.created`
event fails the turn with `unexpectedHandshake` carrying the raw event
(trace: one open, one receive, one close); the Scenario A handshake
yields session id `"s1"`. -/
theorem C6_negotiation (d : List Char) (msgs : List Msg) (sid : Option Js)
    (h : Js) (rest : List Js)
    (hne : typeIs h sessionCreatedV = false) :
    chat_completion d msgs sid (h :: rest)
      = (Except.error (Err.unexpectedHandshake h),
         [Act.openT d, Act.recv, Act.closeT])
    ∧ negotiateStep hsEv = Except.ok (some (Js.str "s1".toList)) := by
  refine ⟨?_, rfl⟩
  simp [chat_completion, chatBody, negotiateStep, hne]

/-- Witness for C6_negotiation at a concrete bad handshake event. -/
theorem C6_negotiation_witness :
    chat_completion "d".toList [userMsg] none [Js.obj [(typeK, Js.str errorV)]]
      = (Except.error (Err.unexpectedHandshake (Js.obj [(typeK, Js.str errorV)])),
         [Act.openT "d".toList, Act.recv, Act.closeT])
    ∧ negotiateStep hsEv = Except.ok (some (Js.str "s1".toList)) :=
  C6_negotiation "d".toList [userMsg] none (Js.obj [(typeK, Js.str errorV)]) [] rfl

/-- C7: after the item-create send, the acknowledgement is classified in
order — `error` field first (`itemCreateRejected` with detail, regardless
of type), then wrong type (`unexpectedItemEvent`), else the turn proceeds
and the fifth trace entry is the `response.create` send. -/
theorem C7_item_ack_classification (d : List Char) (msgs : List Msg)
    (sid : Option Js) (hs e2 : Js) (rest : List Js)
    (hhs : typeIs hs sessionCreatedV = true) :
    (hasKey e2 errorK = true →
      (chat_completion d msgs sid (hs :: e2 :: rest)).1
        = Except.error (Err.itemCreateRejected (e2.getD errorK (Js.obj []))))
    ∧ (hasKey e2 errorK = false → typeIs e2 itemCreatedV = false →
      (chat_completion d msgs sid (hs :: e2 :: rest)).1
        = Except.error Err.unexpectedItemEvent)
    ∧ (hasKey e2 errorK = false → typeIs e2 itemCreatedV = true →
      (chat_completion d msgs sid (hs :: e2 :: rest)).2[4]?
        = some (Act.send responseRequest)) := by
  refine ⟨?_, ?_, ?_⟩
  · intro he
    simp [chat_completion, chatBody, negotiateStep, hhs, he]
  · intro he ht
    simp [chat_completion, chatBody, negotiateStep, hhs, he, ht]
  · intro he ht
    simp [chat_completion, chatBody, negotiateStep, hhs, he, ht]

/-- Witness for C7_item_ack_classification: on a clean acknowledgement
the fifth transport action is the `response.create` send. -/
theorem C7_item_ack_classification_witness :
    (chat_completion "d".toList [userMsg] none [hsEv, ackEv]).2[4]?
      = some (Act.send responseRequest) :=
  (C7_item_ack_classification "d".toList [userMsg] none hsEv ackEv [] rfl).2.2 rfl rfl

/-- C8, counterexample: two successive turns, as the voice loop issues
them, each open their own transport — the concatenated trace holds two
opens, so no session or transport is reused across turns. -/
theorem C8_counterexample :
    (chat_completion "d".toList [userMsg] none [hsEv, ackEv, doneEv []]).2.countP isOpen = 1
    ∧ ((chat_completion "d".toList [userMsg] none [hsEv, ackEv, doneEv []]).2
        ++ (chat_completion "d".toList [sysMsg, userMsg] none
              [hsEv, ackEv, doneEv []]).2).countP isOpen = 2 :=
  ⟨rfl, rfl⟩

/-- C8, amended: every `chat_completion` call holds exactly one transport,
opened first and closed last, with nothing in between opening or closing —
the scoped-acquisition half of the claim, which holds on every exit
path. -/
theorem C8_amended_scoped_transport (d : List Char) (msgs : List Msg)
    (sid : Option Js) (events : List Js) :
    ∃ mid, (chat_completion d msgs sid events).2
        = Act.openT d :: mid ++ [Act.closeT]
      ∧ ∀ a ∈ mid, isOpen a = false ∧ isClose a = false :=
  ⟨(chatBody msgs events).2, rfl, chatBody_no_open_close msgs events⟩

/-- Every JSON value needs at least one unit of fuel. -/
theorem Js.fuel_pos (v : Js) : 1 ≤ Js.fuel v := by
  cases v <;> simp [Js.fuel]

/-- Array fuel is positive. -/
theorem fuelArr_pos (vs : List Js) : 1 ≤ fuelArr vs := by
  cases vs <;> simp [fuelArr]

/-- Object fuel is positive. -/
theorem fuelObj_pos (kvs : List (List Char × Js)) : 1 ≤ fuelObj kvs := by
  cases kvs <;> simp [fuelObj]

/-- Decoding undoes the string escaping: the body parser consumes the
escaped characters up to the closing quote and returns the original
string verbatim. -/
theorem parseStr_escStr (s : List Char) (rest : List Char) :
    parseStr (escStr s ++ '"' :: rest) = some (s, rest) := by
  induction s with
  | nil =>
    rw [show escStr [] ++ '"' :: rest = '"' :: rest from rfl, parseStr.eq_def]
    simp
  | cons c cs ih =>
    by_cases h1 : c = '"'
    · subst h1
      rw [show escStr ('"' :: cs) ++ '"' :: rest
            = '\\' :: '"' :: (escStr cs ++ '"' :: rest) from rfl, parseStr.eq_def]
      simp [ih]
    · by_cases h2 : c = '\\'
      · subst h2
        rw [show escStr ('\\' :: cs) ++ '"' :: rest
              = '\\' :: '\\' :: (escStr cs ++ '"' :: rest) from rfl, parseStr.eq_def]
        simp [ih]
      · by_cases h3 : c = '\n'
        · subst h3
          rw [show escStr ('\n' :: cs) ++ '"' :: rest
                = '\\' :: 'n' :: (escStr cs ++ '"' :: rest) from rfl, parseStr.eq_def]
          simp [ih]
        · by_cases h4 : c = '\r'
          · subst h4
            rw [show escStr ('\r' :: cs) ++ '"' :: rest
                  = '\\' :: 'r' :: (escStr cs ++ '"' :: rest) from rfl, parseStr.eq_def]
            simp [ih]
          · by_cases h5 : c = '\t'
            · subst h5
              rw [show escStr ('\t' :: cs) ++ '"' :: rest
                    = '\\' :: 't' :: (escStr cs ++ '"' :: rest) from rfl, parseStr.eq_def]
              simp [ih]
            · rw [show escStr (c :: cs) ++ '"' :: rest
                    = escChar c ++ (escStr cs ++ '"' :: rest) from by
                  simp [escStr], show escChar c = [c] from by
                  simp [escChar, h1, h2, h3, h4, h5], List.cons_append,
                List.nil_append, parseStr.eq_def]
              simp [h1, h2, ih]

/-- The serialization of any value starts with a quote, an opening
bracket or an opening brace. -/
theorem dumps_head (v : Js) :
    ∃ cs, dumps v = '"' :: cs ∨ dumps v = '[' :: cs ∨ dumps v = '\x7b' :: cs := by
  cases v with
  | str s => exact ⟨_, Or.inl rfl⟩
  | arr vs => exact ⟨_, Or.inr (Or.inl rfl)⟩
  | obj kvs => exact ⟨_, Or.inr (Or.inr rfl)⟩

/-- Round-trip bundle, by induction on fuel: with enough fuel the parser
inverts the serializer for values, array tails, pairs and object tails. -/
theorem parse_dumps_bundle (f : Nat) :
    (∀ v rest, Js.fuel v ≤ f → parseJs f (dumps v ++ rest) = some (v, rest))
    ∧ (∀ vs rest, fuelArr vs ≤ f →
        parseArrRest f (dumpsArrRest vs ++ rest) = some (vs, rest))
    ∧ (∀ kv rest, Js.fuel (Prod.snd kv) + 1 ≤ f →
        parsePair f (dumpsPair kv ++ rest) = some (kv, rest))
    ∧ (∀ kvs rest, fuelObj kvs ≤ f →
        parseObjRest f (dumpsObjRest kvs ++ rest) = some (kvs, rest)) := by
  induction f with
  | zero =>
    refine ⟨?_, ?_, ?_, ?_⟩
    · intro v rest hv; have := Js.fuel_pos v; omega
    · intro vs rest hv; have := fuelArr_pos vs; omega
    · intro kv rest hv; omega
    · intro kvs rest hv; have := fuelObj_pos kvs; omega
  | succ f ih =>
    obtain ⟨ihP, ihA, ihPr, ihO⟩ := ih
    refine ⟨?_, ?_, ?_, ?_⟩
    · intro v rest hv
      cases v with
      | str s =>
        rw [show dumps (Js.str s) ++ rest = '"' :: (escStr s ++ '"' :: rest) from by
              simp [dumps], parseJs.eq_def]
        simp [obind, parseStr_escStr]
      | arr vs =>
        cases vs with
        | nil =>
          rw [show dumps (Js.arr []) ++ rest = '[' :: ']' :: rest from rfl,
            parseJs.eq_def]
          simp
        | cons v1 vs1 =>
          have hfv1 : Js.fuel v1 ≤ f := by
            have := fuelArr_pos vs1
            rw [show Js.fuel (Js.arr (v1 :: vs1))
                  = Js.fuel v1 + fuelArr vs1 + 1 + 1 from rfl] at hv
            omega
          have hfa : fuelArr vs1 ≤ f := by
            have := Js.fuel_pos v1
            rw [show Js.fuel (Js.arr (v1 :: vs1))
                  = Js.fuel v1 + fuelArr vs1 + 1 + 1 from rfl] at hv
            omega
          have h1 := ihP v1 (dumpsArrRest vs1 ++ rest) hfv1
          have h2 := ihA vs1 rest hfa
          rw [show dumps (Js.arr (v1 :: vs1)) ++ rest
                = '[' :: (dumps v1 ++ (dumpsArrRest vs1 ++ rest)) from by
              simp [dumps, dumpsArr]]
          rcases dumps_head v1 with ⟨cs, hh | hh | hh⟩ <;>
            · rw [hh] at h1 ⊢
              simp only [List.cons_append] at h1 ⊢
              rw [parseJs.eq_def]
              simp [obind, h1, h2]
      | obj kvs =>
        cases kvs with
        | nil =>
          rw [show dumps (Js.obj []) ++ rest = '\x7b' :: '\x7d' :: rest from rfl,
            parseJs.eq_def]
          simp
        | cons kv1 kvs1 =>
          have hfv1 : Js.fuel kv1.2 + 1 ≤ f := by
            have := fuelObj_pos kvs1
            rw [show Js.fuel (Js.obj (kv1 :: kvs1))
                  = Js.fuel kv1.2 + fuelObj kvs1 + 1 + 1 from rfl] at hv
            omega
          have hfo : fuelObj kvs1 ≤ f := by
            have := Js.fuel_pos kv1.2
            rw [show Js.fuel (Js.obj (kv1 :: kvs1))
                  = Js.fuel kv1.2 + fuelObj kvs1 + 1 + 1 from rfl] at hv
            omega
          have h1 := ihPr kv1 (dumpsObjRest kvs1 ++ rest) hfv1
          have h2 := ihO kvs1 rest hfo
          obtain ⟨k1, v1⟩ := kv1
          rw [show dumps (Js.obj ((k1, v1) :: kvs1)) ++ rest
                = '\x7b' :: '"' :: (escStr k1 ++ '"' :: ':'
                    :: (dumps v1 ++ (dumpsObjRest kvs1 ++ rest))) from by
              simp [dumps, dumpsObj, dumpsPair], parseJs.eq_def]
          rw [show dumpsPair (k1, v1) ++ (dumpsObjRest kvs1 ++ rest)
                = '"' :: (escStr k1 ++ '"' :: ':'
                    :: (dumps v1 ++ (dumpsObjRest kvs1 ++ rest))) from by
              simp [dumpsPair]] at h1
          rw [parsePair.eq_def] at h1
          simp only [parseStr_escStr] at h1 ⊢
          simp [obind, h1, h2] at h1 ⊢
          rw [parsePair.eq_def]
          simp [obind, parseStr_escStr, h1, h2]
    · intro vs rest hv
      cases vs with
      | nil =>
        rw [show dumpsArrRest ([] : List Js) ++ rest = ']' :: rest from rfl,
          parseArrRest.eq_def]
        simp
      | cons v1 vs1 =>
        have hfv1 : Js.fuel v1 ≤ f := by
          have := fuelArr_pos vs1
          rw [show fuelArr (v1 :: vs1) = Js.fuel v1 + fuelArr vs1 + 1 from rfl] at hv
          omega
        have hfa : fuelArr vs1 ≤ f := by
          have := Js.fuel_pos v1
          rw [show fuelArr (v1 :: vs1) = Js.fuel v1 + fuelArr vs1 + 1 from rfl] at hv
          omega
        have h1 := ihP v1 (dumpsArrRest vs1 ++ rest) hfv1
        have h2 := ihA vs1 rest hfa
        rw [show dumpsArrRest (v1 :: vs1) ++ rest
              = ',' :: (dumps v1 ++ (dumpsArrRest vs1 ++ rest)) from by
            simp [dumpsArrRest], parseArrRest.eq_def]
        simp [obind, h1, h2]
    · intro kv rest hv
      obtain ⟨k, v⟩ := kv
      have hv' : Js.fuel v + 1 ≤ f + 1 := hv
      have h1 := ihP v rest (by omega)
      rw [show dumpsPair (k, v) ++ rest
            = '"' :: (escStr k ++ '"' :: ':' :: (dumps v ++ rest)) from by
          simp [dumpsPair], parsePair.eq_def]
      simp [obind, parseStr_escStr, h1]
    · intro kvs rest hv
      cases kvs with
      | nil =>
        rw [show dumpsObjRest ([] : List (List Char × Js)) ++ rest
              = '\x7d' :: rest from rfl, parseObjRest.eq_def]
        simp
      | cons kv1 kvs1 =>
        have hfv1 : Js.fuel kv1.2 + 1 ≤ f := by
          have := fuelObj_pos kvs1
          rw [show fuelObj (kv1 :: kvs1)
                = Js.fuel kv1.2 + fuelObj kvs1 + 1 from rfl] at hv
          omega
        have hfo : fuelObj kvs1 ≤ f := by
          have := Js.fuel_pos kv1.2
          rw [show fuelObj (kv1 :: kvs1)
                = Js.fuel kv1.2 + fuelObj kvs1 + 1 from rfl] at hv
          omega
        have h1 := ihPr kv1 (dumpsObjRest kvs1 ++ rest) hfv1
        have h2 := ihO kvs1 rest hfo
        rw [show dumpsObjRest (kv1 :: kvs1) ++ rest
              = ',' :: (dumpsPair kv1 ++ (dumpsObjRest kvs1 ++ rest)) from by
            simp [dumpsObjRest], parseObjRest.eq_def]
        simp [obind, h1, h2]

/-- C9: decoding the characters produced by encoding a
conversation-item-create event yields the event back unchanged, so the
decoded event's role (`"user"`) and all its text content parts are
verbatim equal to the original's. -/
theorem C9_roundtrip (msgs : List Msg) :
    parseJs (Js.fuel (createItemRequest msgs)) (dumps (createItemRequest msgs))
      = some (createItemRequest msgs, [])
    ∧ ((createItemRequest msgs).getD itemK (Js.obj [])).get roleK
      = some (Js.str userV)
    ∧ contentTexts (createItemRequest msgs) = msgs.map Msg.content := by
  refine ⟨?_, rfl, contentTexts_createItem msgs⟩
  have h := (parse_dumps_bundle (Js.fuel (createItemRequest msgs))).1
    (createItemRequest msgs) [] (le_refl _)
  simpa using h

/-- C10: the `session_id` argument of `chat_completion` is dead — it is
rebound from the handshake event before any use — so any two calls
differing only in it send the same messages and return the same value. -/
theorem C10_session_id_irrelevant (d : List Char) (msgs : List Msg)
    (sid1 sid2 : Option Js) (events : List Js) :
    chat_completion d msgs sid1 events = chat_completion d msgs sid2 events := rfl

end AzChat
